import Mathlib

/-!
Verification development for the ItemStore repository.

The embedding covers:
* the query layer of `src/backend/src/routes/items.js` (list with search and
  pagination, fetch by id),
* the derived-statistics cache of the stats router (embedded in
  `src/SOLUTION.md`, lines 303-441): `calculateStats`, `getStats`, and the
  module-level `statsCache` record,
* a small interleaving model of concurrent `getStats` callers, used for the
  concurrency-collapse property.

JavaScript strings are modelled as `List Char`, JavaScript numbers as `ℚ`
(exact arithmetic; `NaN` results of `parseInt` are modelled as `Option.none`).
-/

namespace ItemStore

/-! ## Computable floor and ceiling on `ℚ` (used to model `Math.round` and
`Math.ceil`; kernel-reducible, unlike the `FloorRing` instance) -/

/-- Floor of a rational, computably: Euclidean division of numerator by
denominator. -/
def ratFloor (q : ℚ) : Int := q.num / (q.den : Int)

/-- Ceiling of a rational, computably. -/
def ratCeil (q : ℚ) : Int := -ratFloor (-q)

theorem ratFloor_eq (q : ℚ) : ratFloor q = ⌊q⌋ := Rat.floor_def.symm

theorem ratCeil_eq (q : ℚ) : ratCeil q = ⌈q⌉ := by
  rw [ratCeil, ratFloor_eq, Int.floor_neg, neg_neg]

instance exceptDecEq {ε α : Type} [DecidableEq ε] [DecidableEq α] :
    DecidableEq (Except ε α) := fun x y =>
  match x, y with
  | .ok a, .ok b =>
    if h : a = b then isTrue (by rw [h]) else isFalse (by simp [h])
  | .error e, .error f =>
    if h : e = f then isTrue (by rw [h]) else isFalse (by simp [h])
  | .ok _, .error _ => isFalse (by simp)
  | .error _, .ok _ => isFalse (by simp)

/-! ## String helpers (models of the JavaScript string builtins used) -/

/-- Model of `String.prototype.toLowerCase` (ASCII case mapping). -/
def jsToLower (s : List Char) : List Char := s.map Char.toLower

/-- `isLeading pat s` is true when `pat` occurs at the very start of `s`. -/
def isLeading : List Char → List Char → Bool
  | [], _ => true
  | _ :: _, [] => false
  | a :: as, b :: bs => a = b && isLeading as bs

/-- Model of `String.prototype.includes`: `containsSeq pat s` is true when
`pat` occurs contiguously somewhere in `s`. -/
def containsSeq (pat : List Char) : List Char → Bool
  | [] => pat.isEmpty
  | c :: rest => isLeading pat (c :: rest) || containsSeq pat rest

/-- Whitespace skipped by `parseInt` (ASCII subset of the JS whitespace set). -/
def isJsSpace (c : Char) : Bool := c = ' ' || c = '\t' || c = '\n' || c = '\r'

/-- Value of a run of leading decimal digits; `none` when there is none. -/
def digitsVal (cs : List Char) : Option Nat :=
  let ds := cs.takeWhile Char.isDigit
  if ds.isEmpty then none
  else some (ds.foldl (fun a c => a * 10 + (c.toNat - 48)) 0)

/-- Value of a single hexadecimal digit, `none` for other characters. -/
def hexDigitVal (c : Char) : Option Nat :=
  if c.isDigit then some (c.toNat - 48)
  else if 'a' ≤ c ∧ c ≤ 'f' then some (c.toNat - 87)
  else if 'A' ≤ c ∧ c ≤ 'F' then some (c.toNat - 55)
  else none

/-- Value of a run of leading hexadecimal digits; `none` when there is none. -/
def hexDigitsVal (cs : List Char) : Option Nat :=
  let ds := cs.takeWhile (fun c => (hexDigitVal c).isSome)
  if ds.isEmpty then none
  else some (ds.foldl (fun a c => a * 16 + (hexDigitVal c).getD 0) 0)

/-- Unsigned part of `parseInt` with no explicit radix: a `0x`/`0X` head
switches to base 16, otherwise base 10. -/
def parseUnsigned (t : List Char) : Option Nat :=
  match t with
  | '0' :: 'x' :: rest => hexDigitsVal rest
  | '0' :: 'X' :: rest => hexDigitsVal rest
  | _ => digitsVal t

/-- Model of the JavaScript `parseInt(s)` builtin: skip leading whitespace,
an optional sign, then the longest digit run; `none` models `NaN`. -/
def parseIntJS (s : List Char) : Option Int :=
  let t := s.dropWhile isJsSpace
  match t with
  | '-' :: rest => (parseUnsigned rest).map (fun n => -(n : Int))
  | '+' :: rest => (parseUnsigned rest).map (fun n => (n : Int))
  | _ => (parseUnsigned t).map (fun n => (n : Int))

/-! ## Records (data model of `data/items.json` entries) -/

/-- A stored record, as the routes read it from the blob. -/
structure Item where
  id : Int
  name : List Char
  category : List Char
  price : ℚ
deriving DecidableEq, Repr

/-! ## Query layer: `GET /api/items` of `src/backend/src/routes/items.js` -/

/-- The search block (items.js lines 33-40): with a non-empty term `q`, keep
an item when its lowercased name or category contains the lowercased term. -/
def applySearch (q : Option (List Char)) (data : List Item) : List Item :=
  match q with
  | none => data
  | some s =>
    if s.isEmpty then data
    else
      let searchTerm := jsToLower s
      data.filter (fun it =>
        containsSeq searchTerm (jsToLower it.name) ||
        containsSeq searchTerm (jsToLower it.category))

/-- `const pageSize = parseInt(limit) || 10` (items.js line 43): `NaN` and `0`
fall back to `10`, every other parsed value (negative included) is kept. -/
def resolvePageSize (limit : Option (List Char)) : Int :=
  match limit with
  | none => 10
  | some s =>
    match parseIntJS s with
    | none => 10
    | some v => if v = 0 then 10 else v

/-- `const { page = 1 } = req.query; const pageNumber = parseInt(page)`
(items.js lines 30 and 44): an absent parameter defaults to `1`; a present but
unparseable one is `NaN`, modelled as `none`. -/
def resolvePage (page : Option (List Char)) : Option Int :=
  match page with
  | none => some 1
  | some s => parseIntJS s

/-- `startIndex = (pageNumber - 1) * pageSize` (items.js line 47);
`none` models `NaN`. -/
def pageStartIdx (limit page : Option (List Char)) : Option Int :=
  (resolvePage page).map (fun p => (p - 1) * resolvePageSize limit)

/-- `endIndex = startIndex + pageSize` (items.js line 48). -/
def pageEndIdx (limit page : Option (List Char)) : Option Int :=
  (pageStartIdx limit page).map (fun x => x + resolvePageSize limit)

/-- Index conversion of `Array.prototype.slice`: `NaN` becomes `0`, a negative
index counts from the end clamped at `0`, a non-negative one is clamped at the
length. -/
def jsSliceIdx (len : Nat) (x : Option Int) : Nat :=
  match x with
  | none => 0
  | some v => if v < 0 then ((len : Int) + v).toNat else min v.toNat len

/-- Model of `l.slice(s, e)` for JavaScript arrays. -/
def jsSlice {α : Type} (l : List α) (s e : Option Int) : List α :=
  (l.take (jsSliceIdx l.length e)).drop (jsSliceIdx l.length s)

/-- The pagination object returned by `GET /api/items` (items.js lines 54-61).
`page` is `none` when the code would report `NaN`. -/
structure PageInfo where
  page : Option Int
  pageSize : Int
  totalItems : Nat
  totalPages : Int
  hasNextPage : Bool
  hasPrevPage : Bool
deriving DecidableEq, Repr

/-- The response body of `GET /api/items`. -/
structure ListResult where
  items : List Item
  pagination : PageInfo
deriving DecidableEq, Repr

/-- The `GET /api/items` handler (items.js lines 27-66) after a successful
read of the blob: search, then pagination. -/
def listItems (data : List Item) (limit q page : Option (List Char)) :
    ListResult :=
  let results := applySearch q data
  let pageSize := resolvePageSize limit
  let pageNumber := resolvePage page
  let totalItems := results.length
  let totalPages : Int := ratCeil ((totalItems : ℚ) / (pageSize : ℚ))
  let paginated :=
    jsSlice results (pageStartIdx limit page) (pageEndIdx limit page)
  ⟨paginated,
    ⟨pageNumber, pageSize, totalItems, totalPages,
      (match pageNumber with
       | none => false
       | some p => decide (p < totalPages)),
      (match pageNumber with
       | none => false
       | some p => decide (p > 1))⟩⟩

/-- Failure of `GET /api/items/:id`. -/
inductive ItemLookupError where
  | notFound
deriving DecidableEq, Repr

/-- The `GET /api/items/:id` handler (items.js lines 69-82) after a successful
read: `data.find(i => i.id === parseInt(req.params.id))`, a 404 when absent.
A `NaN` comparison value matches nothing. -/
def getItem (ident : List Char) (data : List Item) :
    Except ItemLookupError Item :=
  match parseIntJS ident with
  | none => .error .notFound
  | some v =>
    match data.find? (fun it => it.id = v) with
    | some it => .ok it
    | none => .error .notFound

/-! ## Dynamically-typed view of the search filter

`GET /api/items` applies `item.name.toLowerCase()` and
`item.category.toLowerCase()` to whatever the blob holds.  A field that is
not a string makes `.toLowerCase` throw a `TypeError`, which the handler's
`try`/`catch` surfaces through `next(err)` as a server error.  `JField`
models a stored field: either a string or some non-string value. -/

inductive JField where
  | str (s : List Char)
  | nonstr
deriving DecidableEq, Repr

/-- A stored record as the dynamic filter sees it. -/
structure DItem where
  name : JField
  category : JField
deriving DecidableEq, Repr

/-- One evaluation of the filter callback (items.js lines 36-39).
`Except.error` models a thrown `TypeError`; the `||` short-circuits, so the
category is only touched when the name does not match. -/
def dMatch (searchTerm : List Char) (it : DItem) : Except Unit Bool :=
  match it.name with
  | .nonstr => .error ()
  | .str n =>
    if containsSeq searchTerm (jsToLower n) then .ok true
    else
      match it.category with
      | .nonstr => .error ()
      | .str c => .ok (containsSeq searchTerm (jsToLower c))

/-- `Array.prototype.filter` evaluating the callback left to right, aborting
at the first throw. -/
def dFilter (searchTerm : List Char) : List DItem → Except Unit (List DItem)
  | [] => .ok []
  | it :: rest =>
    match dMatch searchTerm it with
    | .error e => .error e
    | .ok b =>
      match dFilter searchTerm rest with
      | .error e => .error e
      | .ok tail => .ok (if b then it :: tail else tail)

/-- The search block of `GET /api/items` over dynamically-typed records:
`searchTerm = q.toLowerCase()` and then the filter. -/
def dSearch (q : List Char) (data : List DItem) : Except Unit (List DItem) :=
  if q.isEmpty then .ok data else dFilter (jsToLower q) data

/-! ## Statistics: `calculateStats` (SOLUTION.md lines 338-372) -/

/-- A record as the stats module reads it: only `category` and `price`
matter, and either may be absent (`cur.price || 0`,
`item.category || 'Unknown'`). -/
structure SItem where
  category : Option (List Char)
  price : Option ℚ
deriving DecidableEq, Repr

/-- The literal `'Unknown'`. -/
def unknownStr : List Char := ['U', 'n', 'k', 'n', 'o', 'w', 'n']

/-- `item.category || 'Unknown'`: an absent or empty category string is
replaced by `'Unknown'` (both are falsy). -/
def categoryOrUnknown (c : Option (List Char)) : List Char :=
  match c with
  | none => unknownStr
  | some s => if s.isEmpty then unknownStr else s

/-- `cur.price || 0`: an absent price is treated as `0`. -/
def priceOrZero (p : Option ℚ) : ℚ := p.getD 0

/-- `acc[category] = (acc[category] || 0) + 1` over a JS object, modelled as
an insertion-ordered association list. -/
def bumpCategory (m : List (List Char × Nat)) (k : List Char) :
    List (List Char × Nat) :=
  match m with
  | [] => [(k, 1)]
  | (k', v) :: rest =>
    if k' = k then (k', v + 1) :: rest else (k', v) :: bumpCategory rest k

/-- `Math.min(...prices)` over a non-empty list (the empty case never reaches
it); `0` as a dummy for the empty list. -/
def listMin : List ℚ → ℚ
  | [] => 0
  | p :: ps => ps.foldl min p

/-- `Math.max(...prices)`. -/
def listMax : List ℚ → ℚ
  | [] => 0
  | p :: ps => ps.foldl max p

/-- `Math.round`: the closest integer, ties rounding toward positive
infinity; equals `⌊x + 1/2⌋`. -/
def jsRound (q : ℚ) : Int := ratFloor (q + 1 / 2)

/-- The statistics object (SOLUTION.md lines 340-371). -/
structure Stats where
  total : Nat
  averagePrice : ℚ
  categories : List (List Char × Nat)
  priceMin : ℚ
  priceMax : ℚ
deriving DecidableEq, Repr

/-- `calculateStats(items)` (SOLUTION.md lines 338-372). -/
def calculateStats (items : List SItem) : Stats :=
  if items.isEmpty then ⟨0, 0, [], 0, 0⟩
  else
    let total := items.length
    let totalPrice := items.foldl (fun acc cur => acc + priceOrZero cur.price) 0
    let averagePrice := totalPrice / (total : ℚ)
    let categories :=
      items.foldl (fun acc it => bumpCategory acc (categoryOrUnknown it.category)) []
    let prices := items.map (fun it => priceOrZero it.price)
    ⟨total, (jsRound (averagePrice * 100) : ℚ) / 100, categories,
      listMin prices, listMax prices⟩

/-! ## The statistics cache: `statsCache` and `getStats`
(SOLUTION.md lines 310-422) -/

/-- The module-level `statsCache` object (SOLUTION.md lines 311-315). -/
structure StatsCacheState where
  data : Option Stats
  lastModified : Option Int
  isCalculating : Bool
deriving DecidableEq, Repr

/-- The empty cache the module starts with. -/
def initialCache : StatsCacheState := ⟨none, none, false⟩

/-- What the outside world supplies to one iteration of `getStats`:
the result of `getFileModTime()` (`none` models a thrown error) and the
result of `fs.readFile` + `JSON.parse` (`none` models either failing). -/
structure Env where
  modTime : Option Int
  readResult : Option (List SItem)

/-- Failures surfaced by `getStats`. -/
inductive StatErr where
  | statFail
  | readFail
deriving DecidableEq, Repr

/-- The miss path of `getStats` (SOLUTION.md lines 394-417): wait-and-retry
when a computation is in flight (`recur` is the value of the recursive
`return getStats()`), otherwise set the flag, read, compute and store.
The returned `Nat` counts invocations of the full-collection read. -/
def getStatsMiss (recur : Option (Except StatErr Stats × StatsCacheState × Nat))
    (env : Env) (st : StatsCacheState) (m : Int) :
    Option (Except StatErr Stats × StatsCacheState × Nat) :=
  if st.isCalculating then recur
  else
    match env.readResult with
    | none => some (.error .readFail, ⟨st.data, st.lastModified, false⟩, 1)
    | some items =>
      let stats := calculateStats items
      some (.ok stats, ⟨some stats, some m, false⟩, 1)

/-- `getStats()` (SOLUTION.md lines 385-422), big-step, for a single caller.
`fuel` bounds the number of wait-and-retry re-entries we are willing to
unfold; `none` means the call has not settled within that bound (the code
itself has no bound).  `envs i` is the environment seen by the i-th
re-entry.  On a marker-read failure the outer `catch` clears the in-flight
flag and surfaces the failure; on a cache hit the cached object is returned
with no read; otherwise the miss path runs. -/
def getStats : Nat → (Nat → Env) → StatsCacheState →
    Option (Except StatErr Stats × StatsCacheState × Nat)
  | 0, _, _ => none
  | fuel + 1, envs, st =>
    match (envs 0).modTime with
    | none => some (.error .statFail, ⟨st.data, st.lastModified, false⟩, 0)
    | some m =>
      match st.data with
      | some d =>
        if st.lastModified = some m then some (.ok d, st, 0)
        else getStatsMiss (getStats fuel (fun i => envs (i + 1)) st) (envs 0) st m
      | none =>
        getStatsMiss (getStats fuel (fun i => envs (i + 1)) st) (envs 0) st m

/-- States reachable from the empty cache through settled `getStats` calls. -/
inductive SeqReach : StatsCacheState → Prop
  | init : SeqReach initialCache
  | step (fuel : Nat) (envs : Nat → Env) (st : StatsCacheState)
      (out : Except StatErr Stats × StatsCacheState × Nat) :
      SeqReach st → getStats fuel envs st = some out → SeqReach out.2.1

/-! ## Interleaving model of concurrent `getStats` callers

Node's event loop runs each continuation atomically between `await`
suspension points.  A caller of `getStats` suspends at `fs.stat` (inside
`getFileModTime`), at `setTimeout` in the wait path, and at `fs.readFile`;
everything between two suspension points is one atomic block.  The scenario
of the concurrency-collapse property fixes a healthy environment: the data
file never changes (marker always `M`), `fs.stat` and `fs.readFile` always
succeed, the file parses to `items`. -/

/-- Program counter of one in-flight `getStats` caller. -/
inductive CallerPC where
  | start
  | statDone (m : Int)
  | sleeping
  | reading (m : Int)
  | done (s : Stats)
deriving DecidableEq, Repr

/-- Global state: the shared `statsCache`, the multiset of caller
continuations, and how many full-collection reads have been issued. -/
structure Sys where
  cache : StatsCacheState
  callers : Multiset CallerPC
  reads : Nat

/-- One scheduler step.  Each constructor fires one caller's next atomic
block (SOLUTION.md lines 385-422): `stat` resolves `getFileModTime` with the
current marker `M`; `hit` returns the cached object; `wait` observes the
in-flight flag and goes to sleep; `wake` re-enters `getStats` after the
timeout; `compute` sets the in-flight flag and issues the read; `finish`
resolves the read, computes, and stores `(stats, marker, false)` in one
block. -/
inductive CStep (M : Int) (items : List SItem) : Sys → Sys → Prop
  | stat (c : StatsCacheState) (rest : Multiset CallerPC) (r : Nat) :
      CStep M items ⟨c, .start ::ₘ rest, r⟩ ⟨c, .statDone M ::ₘ rest, r⟩
  | hit (c : StatsCacheState) (rest : Multiset CallerPC) (r : Nat)
      (m : Int) (d : Stats)
      (hd : c.data = some d) (hm : c.lastModified = some m) :
      CStep M items ⟨c, .statDone m ::ₘ rest, r⟩ ⟨c, .done d ::ₘ rest, r⟩
  | wait (c : StatsCacheState) (rest : Multiset CallerPC) (r : Nat) (m : Int)
      (hmiss : ¬(c.data.isSome = true ∧ c.lastModified = some m))
      (hc : c.isCalculating = true) :
      CStep M items ⟨c, .statDone m ::ₘ rest, r⟩ ⟨c, .sleeping ::ₘ rest, r⟩
  | wake (c : StatsCacheState) (rest : Multiset CallerPC) (r : Nat) :
      CStep M items ⟨c, .sleeping ::ₘ rest, r⟩ ⟨c, .start ::ₘ rest, r⟩
  | compute (c : StatsCacheState) (rest : Multiset CallerPC) (r : Nat) (m : Int)
      (hmiss : ¬(c.data.isSome = true ∧ c.lastModified = some m))
      (hc : c.isCalculating = false) :
      CStep M items ⟨c, .statDone m ::ₘ rest, r⟩
        ⟨⟨c.data, c.lastModified, true⟩, .reading m ::ₘ rest, r + 1⟩
  | finish (c : StatsCacheState) (rest : Multiset CallerPC) (r : Nat) (m : Int) :
      CStep M items ⟨c, .reading m ::ₘ rest, r⟩
        ⟨⟨some (calculateStats items), some m, false⟩,
          .done (calculateStats items) ::ₘ rest, r⟩

/-- Initial system: empty cache, `n` callers about to enter `getStats`. -/
def sysInit (n : Nat) : Sys :=
  ⟨initialCache, Multiset.replicate n .start, 0⟩

/-- Systems reachable from `sysInit n` under any interleaving. -/
inductive CReach (M : Int) (items : List SItem) (n : Nat) : Sys → Prop
  | init : CReach M items n (sysInit n)
  | step (s s' : Sys) : CReach M items n s → CStep M items s s' →
      CReach M items n s'

/-! ## Helper lemmas about the sequential `getStats` -/

/-- A valid cached entry is returned as-is, with no read and no state
change. -/
theorem getStats_hit (fuel : Nat) (envs : Nat → Env) (st : StatsCacheState)
    (d : Stats) (m : Int) (hd : st.data = some d)
    (hl : st.lastModified = some m) (hm : (envs 0).modTime = some m) :
    getStats (fuel + 1) envs st = some (.ok d, st, 0) := by
  simp [getStats, hm, hd, hl]

/-- A caller that finds the in-flight flag set (and no cache hit) just
re-enters `getStats`: no read, no state change of its own, no retry cap. -/
theorem getStats_retry (fuel : Nat) (envs : Nat → Env) (st : StatsCacheState)
    (m : Int) (hc : st.isCalculating = true) (hm : (envs 0).modTime = some m)
    (hmiss : ¬(st.data.isSome = true ∧ st.lastModified = some m)) :
    getStats (fuel + 1) envs st = getStats fuel (fun i => envs (i + 1)) st := by
  cases hd : st.data with
  | none => simp [getStats, hm, hd, getStatsMiss, hc]
  | some d =>
    have hsl : ¬st.lastModified = some m := fun hl =>
      hmiss ⟨by simp [hd], hl⟩
    simp [getStats, hm, hd, hsl, getStatsMiss, hc]

/-- With the in-flight flag stuck and the marker always obtainable, the
wait-and-retry loop never settles, whatever the fuel. -/
theorem getStats_spin : ∀ (fuel : Nat) (envs : Nat → Env)
    (st : StatsCacheState), (∀ i, ((envs i).modTime).isSome = true) →
    st.isCalculating = true → st.data = none →
    getStats fuel envs st = none := by
  intro fuel
  induction fuel with
  | zero => intro envs st _ _ _; rfl
  | succ n ih =>
    intro envs st hgood hc hd
    obtain ⟨m, hm⟩ := Option.isSome_iff_exists.mp (hgood 0)
    rw [getStats_retry n envs st m hc hm (by simp [hd])]
    exact ih _ st (fun i => hgood (i + 1)) hc hd

/-- Complete characterization of a settled call entered with the in-flight
flag clear: the final cache state is either untouched or a coherent
`(stats, marker, false)` triple written from one environment, and the flag
is clear afterwards. -/
theorem getStats_settle (fuel : Nat) (envs : Nat → Env) (st : StatsCacheState)
    (out : Except StatErr Stats × StatsCacheState × Nat)
    (hflag : st.isCalculating = false)
    (h : getStats fuel envs st = some out) :
    out.2.1.isCalculating = false ∧
      (out.2.1 = st ∨
        ∃ m items, (envs 0).modTime = some m ∧
          (envs 0).readResult = some items ∧
          out.2.1 = ⟨some (calculateStats items), some m, false⟩) := by
  obtain ⟨sd, sl, sc⟩ := st
  simp only at hflag
  subst hflag
  cases fuel with
  | zero => simp [getStats] at h
  | succ n =>
    cases hm : (envs 0).modTime with
    | none =>
      simp [getStats, hm] at h
      simp [← h]
    | some m =>
      cases hd : sd with
      | some d =>
        by_cases hsl : sl = some m
        · simp [getStats, hm, hd, hsl] at h
          simp [← h, hd, hsl]
        · simp [getStats, hm, hd, hsl, getStatsMiss] at h
          cases hr : (envs 0).readResult with
          | none => simp [hr] at h; simp [← h]
          | some items =>
            simp [hr] at h
            exact ⟨by simp [← h], Or.inr ⟨m, items, rfl, rfl, by simp [← h]⟩⟩
      | none =>
        simp [getStats, hm, hd, getStatsMiss] at h
        cases hr : (envs 0).readResult with
        | none => simp [hr] at h; simp [← h]
        | some items =>
          simp [hr] at h
          exact ⟨by simp [← h], Or.inr ⟨m, items, rfl, rfl, by simp [← h]⟩⟩

/-- A successful call entered with the flag clear leaves the cache holding
exactly the returned statistics, keyed by the marker observed at entry. -/
theorem getStats_ok_state (fuel : Nat) (envs : Nat → Env)
    (st st' : StatsCacheState) (r : Stats) (k : Nat) (m : Int)
    (hflag : st.isCalculating = false) (hm : (envs 0).modTime = some m)
    (h : getStats fuel envs st = some (.ok r, st', k)) :
    st'.data = some r ∧ st'.lastModified = some m ∧
      st'.isCalculating = false := by
  obtain ⟨sd, sl, sc⟩ := st
  simp only at hflag
  subst hflag
  cases fuel with
  | zero => simp [getStats] at h
  | succ n =>
    cases hd : sd with
    | some d =>
      by_cases hsl : sl = some m
      · simp [getStats, hm, hd, hsl] at h
        obtain ⟨h1, h2, h3⟩ := h
        simp [← h2, ← h1]
      · simp [getStats, hm, hd, hsl, getStatsMiss] at h
        cases hr : (envs 0).readResult with
        | none => simp [hr] at h
        | some items =>
          simp [hr] at h
          obtain ⟨h1, h2, h3⟩ := h
          simp [← h2, ← h1]
    | none =>
      simp [getStats, hm, hd, getStatsMiss] at h
      cases hr : (envs 0).readResult with
      | none => simp [hr] at h
      | some items =>
        simp [hr] at h
        obtain ⟨h1, h2, h3⟩ := h
        simp [← h2, ← h1]

/-- A failing read (entered with the flag clear, on a cache miss) surfaces
the failure, clears the flag, and leaves `data` and `lastModified`
untouched. -/
theorem getStats_read_fail (fuel : Nat) (envs : Nat → Env)
    (st : StatsCacheState) (m : Int) (hflag : st.isCalculating = false)
    (hm : (envs 0).modTime = some m)
    (hmiss : ¬(st.data.isSome = true ∧ st.lastModified = some m))
    (hr : (envs 0).readResult = none) :
    getStats (fuel + 1) envs st = some (.error .readFail, st, 1) := by
  obtain ⟨sd, sl, sc⟩ := st
  simp only at hflag
  subst hflag
  cases hd : sd with
  | none => simp [getStats, hm, hd, getStatsMiss, hr]
  | some d =>
    have hsl : ¬sl = some m := fun hl => hmiss ⟨by simp [hd], by simp [hl]⟩
    simp [getStats, hm, hd, hsl, getStatsMiss, hr]

/-! ## Concrete states and environments used by witnesses -/

/-- The statistics of the empty collection. -/
def emptyStats : Stats := ⟨0, 0, [], 0, 0⟩

/-- A cache holding `emptyStats` for marker `5`, no computation in flight. -/
def exHitState : StatsCacheState := ⟨some emptyStats, some 5, false⟩

/-- Environment whose marker is always `5` and whose reads succeed. -/
def exEnvs5 : Nat → Env := fun _ => ⟨some 5, some []⟩

/-- A cache stuck with the in-flight flag set and nothing stored. -/
def stuckCache : StatsCacheState := ⟨none, none, true⟩

/-- A healthy environment: marker always `0`, reads always succeed. -/
def constGoodEnvs : Nat → Env := fun _ => ⟨some 0, some []⟩

/-- A cache with a prior entry for marker `3`, no computation in flight. -/
def stalePrior : StatsCacheState := ⟨some emptyStats, some 3, false⟩

/-- Environment where the marker moved to `7` and the read fails. -/
def failEnvs : Nat → Env := fun _ => ⟨some 7, none⟩

/-- Environment where the marker is back at `3` and reads succeed. -/
def priorEnvs : Nat → Env := fun _ => ⟨some 3, some []⟩

/-! ## Claim C1 -/

/-- C1: when cached statistics are present and their stored marker equals the
marker currently reported by the store, `getStatistics()` returns the cached
object unchanged with zero reads of the full collection; consequently, after
any successful call, a second call under the same marker returns the
identical result and performs zero reads. -/
theorem c1_cache_hit_no_reread :
    (∀ (fuel : Nat) (envs : Nat → Env) (st : StatsCacheState) (d : Stats)
      (m : Int), st.data = some d → st.lastModified = some m →
      (envs 0).modTime = some m →
      getStats (fuel + 1) envs st = some (.ok d, st, 0)) ∧
    (∀ (fuel fuel2 : Nat) (envs envs2 : Nat → Env)
      (st st' : StatsCacheState) (r : Stats) (k : Nat) (m : Int),
      st.isCalculating = false → (envs 0).modTime = some m →
      (envs2 0).modTime = some m →
      getStats fuel envs st = some (.ok r, st', k) →
      getStats (fuel2 + 1) envs2 st' = some (.ok r, st', 0)) := by
  refine ⟨getStats_hit, ?_⟩
  intro fuel fuel2 envs envs2 st st' r k m hflag hm hm2 h
  obtain ⟨hd, hl, _⟩ := getStats_ok_state fuel envs st st' r k m hflag hm h
  exact getStats_hit fuel2 envs2 st' r m hd hl hm2

/-- Witness for C1 at a concrete cache state and environment. -/
theorem c1_witness :
    getStats 1 exEnvs5 exHitState = some (.ok emptyStats, exHitState, 0) :=
  c1_cache_hit_no_reread.1 0 exEnvs5 exHitState emptyStats 5 rfl rfl rfl

/-! ## Claim C2 -/

/-- C2 counterexample: the wait-for-in-flight retry has no cap.  With the
in-flight flag set and a healthy environment (marker always obtainable,
reads always succeeding), a caller has still neither settled nor performed
its own computation after a thousand wait-and-retry iterations — far beyond
any small fixed cap; the claimed fall-back to computing directly never
happens. -/
theorem c2_counterexample :
    stuckCache.isCalculating = true ∧ stuckCache.data = none ∧
      getStats 1000 constGoodEnvs stuckCache = none :=
  ⟨rfl, rfl, getStats_spin 1000 constGoodEnvs stuckCache (fun _ => rfl) rfl rfl⟩

/-- C2 (amended): the wait-for-in-flight retry is unbounded.  A caller that
finds a computation in flight (and no cache hit) performs no computation of
its own and simply re-enters `getStats`, with no retry cap; in particular,
while the flag stays set and the marker stays obtainable the loop never
settles, whatever bound is imposed. -/
theorem c2_amended_unbounded_retry :
    (∀ (fuel : Nat) (envs : Nat → Env) (st : StatsCacheState) (m : Int),
      st.isCalculating = true → (envs 0).modTime = some m →
      ¬(st.data.isSome = true ∧ st.lastModified = some m) →
      getStats (fuel + 1) envs st = getStats fuel (fun i => envs (i + 1)) st) ∧
    (∀ (fuel : Nat) (envs : Nat → Env) (st : StatsCacheState),
      (∀ i, ((envs i).modTime).isSome = true) → st.isCalculating = true →
      st.data = none → getStats fuel envs st = none) :=
  ⟨fun fuel envs st m hc hm hmiss => getStats_retry fuel envs st m hc hm hmiss,
   getStats_spin⟩

/-- Witness for the amended C2 at a concrete stuck state. -/
theorem c2_witness :
    getStats 1 constGoodEnvs stuckCache
      = getStats 0 (fun i => constGoodEnvs (i + 1)) stuckCache :=
  c2_amended_unbounded_retry.1 0 constGoodEnvs stuckCache 0 rfl rfl (by decide)

/-! ## Claim C3 -/

/-- C3: a failure of the read/compute phase clears the in-flight flag,
surfaces the failure, and leaves the previously cached statistics and their
stored marker untouched; a subsequent call whose current marker matches the
stored one still gets the prior entry. -/
theorem c3_failure_preserves_entry :
    ∀ (fuel : Nat) (envs : Nat → Env) (st : StatsCacheState) (m : Int),
      st.isCalculating = false → (envs 0).modTime = some m →
      ¬(st.data.isSome = true ∧ st.lastModified = some m) →
      (envs 0).readResult = none →
      getStats (fuel + 1) envs st = some (.error .readFail, st, 1) ∧
      (∀ (fuel2 : Nat) (envs2 : Nat → Env) (d : Stats) (m2 : Int),
        st.data = some d → st.lastModified = some m2 →
        (envs2 0).modTime = some m2 →
        getStats (fuel2 + 1) envs2 st = some (.ok d, st, 0)) := by
  intro fuel envs st m hflag hm hmiss hr
  exact ⟨getStats_read_fail fuel envs st m hflag hm hmiss hr,
    fun fuel2 envs2 d m2 hd hl hm2 => getStats_hit fuel2 envs2 st d m2 hd hl hm2⟩

/-- Witness for C3: a marker change to `7` with a failing read surfaces the
error and keeps the entry for marker `3`, which a later call under marker
`3` still returns. -/
theorem c3_witness :
    getStats 1 failEnvs stalePrior = some (.error .readFail, stalePrior, 1) ∧
      getStats 1 priorEnvs stalePrior = some (.ok emptyStats, stalePrior, 0) :=
  ⟨(c3_failure_preserves_entry 0 failEnvs stalePrior 7 rfl rfl (by decide) rfl).1,
   (c3_failure_preserves_entry 0 failEnvs stalePrior 7 rfl rfl (by decide) rfl).2
     0 priorEnvs emptyStats 3 rfl rfl rfl⟩

/-! ## Claim C5 -/

/-- The cache-entry coherence invariant: no computation marked in flight
after a settled call, and whenever statistics are present they were computed
from some read collection and stored together with a marker. -/
def seqInv (st : StatsCacheState) : Prop :=
  st.isCalculating = false ∧
  ∀ d, st.data = some d →
    ∃ m items, st.lastModified = some m ∧ d = calculateStats items

/-- C5: the cache entry is never half-written.  Every state reachable
through settled `getStatistics()` calls has the in-flight flag clear and a
coherent entry; moreover a settled call either leaves the state untouched or
writes statistics and the marker observed before the read together, in one
step, with the flag clear. -/
theorem c5_entry_never_halfwritten :
    (∀ st, SeqReach st → seqInv st) ∧
    (∀ (fuel : Nat) (envs : Nat → Env) (st : StatsCacheState)
      (out : Except StatErr Stats × StatsCacheState × Nat),
      st.isCalculating = false → getStats fuel envs st = some out →
      out.2.1.isCalculating = false ∧
        (out.2.1 = st ∨
          ∃ m items, (envs 0).modTime = some m ∧
            (envs 0).readResult = some items ∧
            out.2.1 = ⟨some (calculateStats items), some m, false⟩)) := by
  constructor
  · intro st h
    induction h with
    | init => exact ⟨rfl, fun d hd => by simp [initialCache] at hd⟩
    | step fuel envs st out hreach hout ih =>
      obtain ⟨hflag, hcase⟩ := getStats_settle fuel envs st out ih.1 hout
      refine ⟨hflag, ?_⟩
      rcases hcase with heq | ⟨m, items, _, _, heq⟩
      · rw [heq]; exact ih.2
      · intro d hd
        rw [heq] at hd
        simp only at hd
        exact ⟨m, items, by rw [heq], by simp at hd; exact hd.symm⟩
  · exact getStats_settle

/-- Witness for C5 at the initial cache state. -/
theorem c5_witness : seqInv initialCache :=
  c5_entry_never_halfwritten.1 initialCache SeqReach.init

/-! ## Claim C4: the concurrency-collapse invariant -/

/-- Is this caller currently awaiting the full-collection read? -/
def isReadingPC : CallerPC → Bool
  | .reading _ => true
  | _ => false

/-- Inductive invariant of the interleaving model under a fixed marker `M`
and fixed file contents `items`. -/
def cInv (M : Int) (items : List SItem) (s : Sys) : Prop :=
  (∀ pc ∈ s.callers, ∀ m : Int,
    (pc = CallerPC.statDone m ∨ pc = CallerPC.reading m) → m = M) ∧
  (Multiset.countP (fun c => isReadingPC c = true) s.callers
    = if s.cache.isCalculating then 1 else 0) ∧
  (s.reads = (if s.cache.isCalculating then 1 else 0) +
    (if s.cache.data.isSome then 1 else 0)) ∧
  (∀ d, s.cache.data = some d →
    d = calculateStats items ∧ s.cache.lastModified = some M) ∧
  (s.cache.isCalculating = true → s.cache.data = none) ∧
  (∀ d, CallerPC.done d ∈ s.callers → s.cache.data = some d)

theorem cInv_init (M : Int) (items : List SItem) (n : Nat) :
    cInv M items (sysInit n) := by
  refine ⟨?_, ?_, rfl, ?_, ?_, ?_⟩
  · intro pc hpc m hm
    rw [Multiset.eq_of_mem_replicate hpc] at hm
    rcases hm with h | h <;> exact absurd h (by simp)
  · rw [if_neg (by simp [sysInit, initialCache])]
    refine Multiset.countP_eq_zero.mpr ?_
    intro pc hpc
    rw [Multiset.eq_of_mem_replicate hpc]
    simp [isReadingPC]
  · intro d hd; simp [sysInit, initialCache] at hd
  · intro h; rfl
  · intro d hd
    exact absurd (Multiset.eq_of_mem_replicate hd) (by simp)

theorem cInv_step (M : Int) (items : List SItem) (s s' : Sys)
    (hstep : CStep M items s s') (hinv : cInv M items s) :
    cInv M items s' := by
  obtain ⟨hA, hB, hC, hD, hE, hF⟩ := hinv
  cases hstep with
  | stat c rest r =>
    refine ⟨?_, ?_, hC, hD, hE, ?_⟩
    · intro pc hpc m hm
      rcases Multiset.mem_cons.mp hpc with h | h
      · subst h
        rcases hm with h | h
        · exact (CallerPC.statDone.inj h).symm
        · cases h
      · exact hA pc (Multiset.mem_cons_of_mem h) m hm
    · rw [Multiset.countP_cons, if_neg (by simp [isReadingPC])]
      rw [Multiset.countP_cons, if_neg (by simp [isReadingPC])] at hB
      simpa using hB
    · intro d hd
      rcases Multiset.mem_cons.mp hd with h | h
      · cases h
      · exact hF d (Multiset.mem_cons_of_mem h)
  | hit c rest r m d hd hm =>
    refine ⟨?_, ?_, hC, hD, hE, ?_⟩
    · intro pc hpc m' hm'
      rcases Multiset.mem_cons.mp hpc with h | h
      · subst h; rcases hm' with h | h <;> cases h
      · exact hA pc (Multiset.mem_cons_of_mem h) m' hm'
    · rw [Multiset.countP_cons, if_neg (by simp [isReadingPC])]
      rw [Multiset.countP_cons, if_neg (by simp [isReadingPC])] at hB
      simpa using hB
    · intro d' hd'
      rcases Multiset.mem_cons.mp hd' with h | h
      · cases h; exact hd
      · exact hF d' (Multiset.mem_cons_of_mem h)
  | wait c rest r m hmiss hc =>
    refine ⟨?_, ?_, hC, hD, hE, ?_⟩
    · intro pc hpc m' hm'
      rcases Multiset.mem_cons.mp hpc with h | h
      · subst h; rcases hm' with h | h <;> cases h
      · exact hA pc (Multiset.mem_cons_of_mem h) m' hm'
    · rw [Multiset.countP_cons, if_neg (by simp [isReadingPC])]
      rw [Multiset.countP_cons, if_neg (by simp [isReadingPC])] at hB
      simpa using hB
    · intro d' hd'
      rcases Multiset.mem_cons.mp hd' with h | h
      · cases h
      · exact hF d' (Multiset.mem_cons_of_mem h)
  | wake c rest r =>
    refine ⟨?_, ?_, hC, hD, hE, ?_⟩
    · intro pc hpc m' hm'
      rcases Multiset.mem_cons.mp hpc with h | h
      · subst h; rcases hm' with h | h <;> cases h
      · exact hA pc (Multiset.mem_cons_of_mem h) m' hm'
    · rw [Multiset.countP_cons, if_neg (by simp [isReadingPC])]
      rw [Multiset.countP_cons, if_neg (by simp [isReadingPC])] at hB
      simpa using hB
    · intro d' hd'
      rcases Multiset.mem_cons.mp hd' with h | h
      · cases h
      · exact hF d' (Multiset.mem_cons_of_mem h)
  | compute c rest r m hmiss hc =>
    have hmM : m = M :=
      hA (CallerPC.statDone m) (Multiset.mem_cons_self _ _) m (Or.inl rfl)
    have hdata : c.data = none := by
      cases hdc : c.data with
      | none => rfl
      | some d =>
        obtain ⟨_, hlm⟩ := hD d hdc
        exact absurd ⟨by simp [hdc], by rw [hlm, hmM]⟩ hmiss
    refine ⟨?_, ?_, ?_, ?_, ?_, ?_⟩
    · intro pc hpc m' hm'
      rcases Multiset.mem_cons.mp hpc with h | h
      · subst h; rcases hm' with h | h
        · cases h
        · cases h; exact hmM
      · exact hA pc (Multiset.mem_cons_of_mem h) m' hm'
    · rw [Multiset.countP_cons, if_pos (by simp [isReadingPC])]
      rw [Multiset.countP_cons, if_neg (by simp [isReadingPC])] at hB
      rw [hc] at hB
      simp only [if_false] at hB ⊢
      simpa using hB
    · simp only [hc, hdata] at hC
      simp at hC
      simp [hdata, hC]
    · intro d hd; simp [hdata] at hd
    · intro _; exact hdata
    · intro d hd
      rcases Multiset.mem_cons.mp hd with h | h
      · cases h
      · exact absurd (hF d (Multiset.mem_cons_of_mem h))
          (by simp [hdata])
  | finish c rest r m =>
    have hmM : m = M :=
      hA (CallerPC.reading m) (Multiset.mem_cons_self _ _) m (Or.inr rfl)
    have hcount := hB
    rw [Multiset.countP_cons, if_pos (by simp [isReadingPC])] at hcount
    have hcTrue : c.isCalculating = true := by
      by_contra hcFalse
      rw [if_neg hcFalse] at hcount
      omega
    have hdata : c.data = none := hE hcTrue
    have hrest : Multiset.countP (fun x => isReadingPC x = true) rest = 0 := by
      rw [if_pos hcTrue] at hcount
      omega
    have hreads : r = 1 := by
      rw [hcTrue, hdata] at hC
      simpa using hC
    refine ⟨?_, ?_, ?_, ?_, ?_, ?_⟩
    · intro pc hpc m' hm'
      rcases Multiset.mem_cons.mp hpc with h | h
      · subst h; rcases hm' with h | h <;> cases h
      · exact hA pc (Multiset.mem_cons_of_mem h) m' hm'
    · rw [Multiset.countP_cons, if_neg (by simp [isReadingPC])]
      simpa using hrest
    · simpa using hreads
    · intro d hd
      simp only at hd
      cases hd
      exact ⟨rfl, by rw [hmM]⟩
    · intro h; simp at h
    · intro d hd
      rcases Multiset.mem_cons.mp hd with h | h
      · cases h; rfl
      · exact absurd (hF d (Multiset.mem_cons_of_mem h)) (by simp [hdata])

theorem cInv_reach (M : Int) (items : List SItem) (n : Nat) (s : Sys)
    (h : CReach M items n s) : cInv M items s := by
  induction h with
  | init => exact cInv_init M items n
  | step s s' hr hstep ih => exact cInv_step M items s s' hstep ih

/-- What the concurrency-collapse claim asserts of a reachable system:
never more than one full read, and any caller that has been served implies
exactly one full read happened and its result is the computed statistics. -/
def collapseGoal (items : List SItem) (s : Sys) : Prop :=
  s.reads ≤ 1 ∧
  ∀ d, CallerPC.done d ∈ s.callers →
    s.reads = 1 ∧ d = calculateStats items

/-- C4: with the cache initially empty and `n` concurrent callers under an
unchanged marker, every interleaving performs at most one full
read-and-compute pass, and as soon as any caller has been served exactly
one pass has happened — callers arriving during the in-flight computation
wait instead of starting a second one. -/
theorem c4_concurrency_collapse :
    ∀ (M : Int) (items : List SItem) (n : Nat) (s : Sys),
      CReach M items n s → collapseGoal items s := by
  intro M items n s h
  obtain ⟨hA, hB, hC, hD, hE, hF⟩ := cInv_reach M items n s h
  constructor
  · cases hcalc : s.cache.isCalculating with
    | true => rw [hC, hcalc, hE hcalc]; simp
    | false => rw [hC, hcalc]; cases s.cache.data.isSome <;> simp
  · intro d hd
    have hdata := hF d hd
    obtain ⟨hval, _⟩ := hD d hdata
    have hcalcF : s.cache.isCalculating = false := by
      by_contra hc
      rw [hE (Bool.of_not_eq_false hc ▸ by
        cases hcv : s.cache.isCalculating with
        | true => rfl
        | false => exact absurd hcv hc)] at hdata
      cases hdata
    refine ⟨?_, hval⟩
    rw [hC, hcalcF, hdata]
    simp

/-- Witness for C4: a terminal system of a complete one-caller run, reached
by the trace stat, compute, finish. -/
theorem c4_witness :
    collapseGoal []
      ⟨⟨some (calculateStats []), some 7, false⟩,
        CallerPC.done (calculateStats []) ::ₘ 0, 1⟩ :=
  c4_concurrency_collapse 7 [] 1 _
    (CReach.step _ _
      (CReach.step _ _
        (CReach.step _ _ CReach.init (CStep.stat _ 0 0))
        (CStep.compute _ 0 0 7 (by decide) rfl))
      (CStep.finish _ 0 1 7))

/-! ## Claim C6: the average price -/

theorem foldl_add_price (l : List SItem) (a : ℚ) :
    l.foldl (fun acc cur => acc + priceOrZero cur.price) a
      = a + (l.map (fun it => priceOrZero it.price)).sum := by
  induction l generalizing a with
  | nil => simp
  | cons x xs ih => simp [ih, add_assoc]

/-- Rounding to 2 decimal places with round-half-up on the hundredths digit,
as the spec words it: scale by 100, take the floor of the half-shifted
value, scale back. -/
def specRoundHalfUp2 (x : ℚ) : ℚ := (ratFloor (x * 100 + 1 / 2) : ℚ) / 100

/-- C6: for a non-empty collection whose records all carry a price, the
computed `averagePrice` is the sum of the records' prices divided by the
record count, rounded to 2 decimal places with round-half-up on the
hundredths digit: 100 times it is an integer `k` with
`avg*100 - 1/2 < k ≤ avg*100 + 1/2`. -/
theorem c6_average_price :
    ∀ items : List SItem, items ≠ [] →
      (∀ it ∈ items, (it.price).isSome = true) →
      (calculateStats items).averagePrice
          = specRoundHalfUp2
            ((items.map (fun it => priceOrZero it.price)).sum
              / (items.length : ℚ)) ∧
      ∃ k : ℤ, (calculateStats items).averagePrice * 100 = (k : ℚ) ∧
        ((items.map (fun it => priceOrZero it.price)).sum
            / (items.length : ℚ)) * 100 - 1 / 2 < (k : ℚ) ∧
        (k : ℚ) ≤ ((items.map (fun it => priceOrZero it.price)).sum
            / (items.length : ℚ)) * 100 + 1 / 2 := by
  intro items hne _
  have hE : items.isEmpty = false := by
    cases items with
    | nil => exact absurd rfl hne
    | cons _ _ => rfl
  set x : ℚ :=
    (items.map (fun it => priceOrZero it.price)).sum / (items.length : ℚ)
    with hx
  have havg : (calculateStats items).averagePrice
      = (ratFloor (x * 100 + 1 / 2) : ℚ) / 100 := by
    simp only [calculateStats, hE, Bool.false_eq_true, if_false, jsRound]
    rw [foldl_add_price, zero_add]
  constructor
  · rw [havg]; rfl
  · refine ⟨ratFloor (x * 100 + 1 / 2), ?_, ?_, ?_⟩
    · rw [havg]; field_simp
    · rw [ratFloor_eq]
      have := Int.lt_floor_add_one (x * 100 + 1 / 2)
      push_cast at this ⊢
      linarith
    · rw [ratFloor_eq]
      have := Int.floor_le (x * 100 + 1 / 2)
      push_cast at this ⊢
      linarith

/-- A concrete two-record collection for the C6 witness. -/
def exC6items : List SItem := [⟨some ['x'], some 1⟩, ⟨some ['x'], some 2⟩]

/-- Witness for C6 at a concrete collection (prices 1 and 2). -/
theorem c6_witness :
    (calculateStats exC6items).averagePrice
        = specRoundHalfUp2
          ((exC6items.map (fun it => priceOrZero it.price)).sum
            / (exC6items.length : ℚ)) ∧
      ∃ k : ℤ, (calculateStats exC6items).averagePrice * 100 = (k : ℚ) ∧
        ((exC6items.map (fun it => priceOrZero it.price)).sum
            / (exC6items.length : ℚ)) * 100 - 1 / 2 < (k : ℚ) ∧
        (k : ℚ) ≤ ((exC6items.map (fun it => priceOrZero it.price)).sum
            / (exC6items.length : ℚ)) * 100 + 1 / 2 :=
  c6_average_price exC6items (by decide) (by decide)

/-! ## Claim C7: pagination -/

theorem take_min_drop_min {α : Type} (l : List α) (a n : Nat) :
    (l.take (min (a + n) l.length)).drop (min a l.length)
      = (l.drop a).take n := by
  rcases le_total a l.length with ha | ha
  · rw [min_eq_left ha]
    rcases le_total (a + n) l.length with hb | hb
    · rw [min_eq_left hb, List.drop_take]
      congr 1
      omega
    · rw [min_eq_right hb, List.take_length]
      exact (List.take_of_length_le (by rw [List.length_drop]; omega)).symm
  · rw [min_eq_right ha, min_eq_right (by omega : l.length ≤ a + n),
      List.take_length, List.drop_eq_nil_of_le (le_refl l.length),
      List.drop_eq_nil_of_le ha, List.take_nil]

/-- For non-negative start and count, the JS slice is the familiar
clipped-window: drop the start, take the count. -/
theorem jsSlice_nonneg {α : Type} (l : List α) (a s : Int)
    (ha : 0 ≤ a) (hs : 0 ≤ s) :
    jsSlice l (some a) (some (a + s)) = (l.drop a.toNat).take s.toNat := by
  have h1 : jsSliceIdx l.length (some a) = min a.toNat l.length := by
    simp [jsSliceIdx, not_lt.mpr ha]
  have h2 : jsSliceIdx l.length (some (a + s))
      = min (a.toNat + s.toNat) l.length := by
    simp only [jsSliceIdx, if_neg (not_lt.mpr (by omega : (0 : Int) ≤ a + s))]
    rw [Int.toNat_add ha hs]
  rw [jsSlice, h1, h2, take_min_drop_min]

/-- What the amended C7 asserts of one request whose parsed page is `p`. -/
def c7Prop (data : List Item) (limit q page : Option (List Char))
    (p : Int) : Prop :=
  (listItems data limit q page).items
      = ((applySearch q data).drop
          ((p - 1) * resolvePageSize limit).toNat).take
          (resolvePageSize limit).toNat ∧
  (listItems data limit q page).pagination.page = some p ∧
  (listItems data limit q page).pagination.pageSize = resolvePageSize limit ∧
  (listItems data limit q page).pagination.totalItems
      = (applySearch q data).length ∧
  (listItems data limit q page).pagination.totalPages
      = ratCeil (((applySearch q data).length : ℚ)
          / (resolvePageSize limit : ℚ)) ∧
  (listItems data limit q page).pagination.hasNextPage
      = decide (p < ratCeil (((applySearch q data).length : ℚ)
          / (resolvePageSize limit : ℚ))) ∧
  (listItems data limit q page).pagination.hasPrevPage = decide (1 < p) ∧
  (ratCeil (((applySearch q data).length : ℚ)
      / (resolvePageSize limit : ℚ)) < p →
    (listItems data limit q page).items = [])

/-- C7 (amended): for requests whose parsed page `p` and resolved page size
are at least 1, `listItems` slices the post-search results to
`[(p-1)*size, (p-1)*size + size)` clipped to bounds, a page beyond
`totalPages` yields an empty item list, and `PageInfo` carries the claimed
fields; `pageSize` falls back to 10 when absent or unparseable and `page`
defaults to 1 when absent.  (For a negative or zero page, or a negative
page size, the code's JS `slice` counts negative indices from the end of
the list instead of clamping, so the clipped-slice reading fails there —
see the counterexample.) -/
theorem c7_amended_pagination :
    ∀ (data : List Item) (limit q page : Option (List Char)) (p : Int),
      resolvePage page = some p → 1 ≤ p → 1 ≤ resolvePageSize limit →
      c7Prop data limit q page p ∧
      resolvePage none = some 1 ∧ resolvePageSize none = 10 ∧
      ∀ t, parseIntJS t = none → resolvePageSize (some t) = 10 := by
  intro data limit q page p hp hp1 hs1
  refine ⟨?_, rfl, rfl, fun t ht => by simp [resolvePageSize, ht]⟩
  have hstart : pageStartIdx limit page
      = some ((p - 1) * resolvePageSize limit) := by
    simp [pageStartIdx, hp]
  have hend : pageEndIdx limit page
      = some ((p - 1) * resolvePageSize limit + resolvePageSize limit) := by
    rw [pageEndIdx, hstart]; rfl
  have ha : 0 ≤ (p - 1) * resolvePageSize limit :=
    mul_nonneg (by omega) (by omega)
  have hitems : (listItems data limit q page).items
      = ((applySearch q data).drop
          ((p - 1) * resolvePageSize limit).toNat).take
          (resolvePageSize limit).toNat := by
    show jsSlice (applySearch q data) (pageStartIdx limit page)
        (pageEndIdx limit page) = _
    rw [hstart, hend, jsSlice_nonneg _ _ _ ha (by omega)]
  refine ⟨hitems, by simp [listItems, hp], rfl, rfl, rfl,
    by simp [listItems, hp], by simp [listItems, hp], ?_⟩
  intro htp
  rw [hitems]
  have hs0 : (0 : ℚ) < ((resolvePageSize limit : Int) : ℚ) := by
    exact_mod_cast (by omega : (0 : Int) < resolvePageSize limit)
  have hq : (((applySearch q data).length : ℚ))
      ≤ (ratCeil (((applySearch q data).length : ℚ)
          / (resolvePageSize limit : ℚ)) : ℚ) * (resolvePageSize limit : ℚ) := by
    rw [ratCeil_eq]
    calc (((applySearch q data).length : ℚ))
        = (((applySearch q data).length : ℚ)
            / (resolvePageSize limit : ℚ)) * (resolvePageSize limit : ℚ) := by
          field_simp
      _ ≤ _ := by
          apply mul_le_mul_of_nonneg_right (Int.le_ceil _) (le_of_lt hs0)
  have hZ : (((applySearch q data).length : Int))
      ≤ ratCeil (((applySearch q data).length : ℚ)
          / (resolvePageSize limit : ℚ)) * resolvePageSize limit := by
    exact_mod_cast hq
  have hbound : (((applySearch q data).length : Int))
      ≤ (p - 1) * resolvePageSize limit := by
    calc (((applySearch q data).length : Int))
        ≤ _ * resolvePageSize limit := hZ
      _ ≤ (p - 1) * resolvePageSize limit :=
          mul_le_mul_of_nonneg_right (by omega) (by omega)
  rw [List.drop_eq_nil_of_le (by omega), List.take_nil]

/-- Three plain records for the C7 witness. -/
def exData3 : List Item :=
  [⟨1, ['a'], ['x'], 1⟩, ⟨2, ['b'], ['x'], 1⟩, ⟨3, ['c'], ['x'], 1⟩]

/-- Witness for the amended C7: 3 records, `pageSize=2`, page 1. -/
theorem c7_witness : c7Prop exData3 (some ['2']) none (some ['1']) 1 :=
  (c7_amended_pagination exData3 (some ['2']) none (some ['1']) 1 rfl
    (by decide) (by decide)).1

/-- The spec's clipped slice, following its words: the window
`[startIndex, startIndex + pageSize)` intersected with the valid positions
of the list (so any window lying outside yields the empty list). -/
def specClippedSlice (l : List Item) (start count : Int) : List Item :=
  (l.take (start + count).toNat).drop start.toNat

/-- Five plain records for the C7 counterexample. -/
def cex7data : List Item :=
  [⟨1, ['a'], ['x'], 1⟩, ⟨2, ['b'], ['x'], 1⟩, ⟨3, ['c'], ['x'], 1⟩,
   ⟨4, ['d'], ['x'], 1⟩, ⟨5, ['e'], ['x'], 1⟩]

unseal Rat.add Rat.mul Rat.inv in
/-- C7 counterexample: for `page=-1`, `pageSize=3` over 5 records — an
out-of-range page — the claim's clipped slice `[-6, -3)` is empty, but the
code returns the first two records: JS `slice` counts the negative indices
from the end of the list (`5-6 -> 0`, `5-3 -> 2`), so an out-of-range page
does not always yield an empty item list. -/
theorem c7_counterexample :
    resolvePage (some ['-', '1']) = some (-1) ∧
    resolvePageSize (some ['3']) = 3 ∧
    specClippedSlice cex7data ((-1 - 1) * 3) 3 = [] ∧
    (listItems cex7data (some ['3']) none (some ['-', '1'])).items
      = [⟨1, ['a'], ['x'], 1⟩, ⟨2, ['b'], ['x'], 1⟩] := by
  refine ⟨by decide, by decide, by decide, by decide⟩

/-! ## Claim C8: the search filter -/

/-- Case-insensitive substring containment, as the spec words it: the
lowercased term occurs contiguously in the lowercased field. -/
def specCIContains (term s : List Char) : Bool :=
  containsSeq (jsToLower term) (jsToLower s)

/-- C8: with a non-empty search term, a record is kept iff its name or its
category contains the term as a case-insensitive substring, the filter runs
before pagination, and `totalItems` counts the filtered set: the reported
total is the filtered length, the returned page is a slice of the filtered
list, and membership in the filtered list is the containment test. -/
theorem c8_search_filter :
    ∀ (data : List Item) (limit page : Option (List Char)) (term : List Char),
      term ≠ [] →
      (listItems data limit (some term) page).pagination.totalItems
          = (data.filter (fun it => specCIContains term it.name
              || specCIContains term it.category)).length ∧
      (listItems data limit (some term) page).items
          = jsSlice (data.filter (fun it => specCIContains term it.name
              || specCIContains term it.category))
              (pageStartIdx limit page) (pageEndIdx limit page) ∧
      (∀ it, it ∈ data.filter (fun it => specCIContains term it.name
              || specCIContains term it.category)
          ↔ it ∈ data ∧ (specCIContains term it.name = true
              ∨ specCIContains term it.category = true)) := by
  intro data limit page term hterm
  have hne : term.isEmpty = false := by
    cases term with
    | nil => exact absurd rfl hterm
    | cons _ _ => rfl
  have hfil : applySearch (some term) data
      = data.filter (fun it => specCIContains term it.name
          || specCIContains term it.category) := by
    simp only [applySearch, hne, Bool.false_eq_true, if_false,
      specCIContains]
  refine ⟨?_, ?_, ?_⟩
  · show (applySearch (some term) data).length = _
    rw [hfil]
  · show jsSlice (applySearch (some term) data) _ _ = _
    rw [hfil]
  · intro it
    rw [List.mem_filter]
    simp [Bool.or_eq_true]

/-- The spec's search test records. -/
def itemLaptop : Item :=
  ⟨1, ['T', 'e', 's', 't', ' ', 'L', 'a', 'p', 't', 'o', 'p'],
    ['E', 'l', 'e', 'c', 't', 'r', 'o', 'n', 'i', 'c', 's'], 1⟩

/-- The spec's search test records. -/
def itemChair : Item :=
  ⟨2, ['T', 'e', 's', 't', ' ', 'C', 'h', 'a', 'i', 'r'],
    ['F', 'u', 'r', 'n', 'i', 't', 'u', 'r', 'e'], 1⟩

/-- The search term `"ELECtronics"` (mixed case). -/
def searchElectronics : List Char :=
  ['E', 'L', 'E', 'C', 't', 'r', 'o', 'n', 'i', 'c', 's']

/-- Witness for C8 on the spec's two test records and a mixed-case term. -/
theorem c8_witness :
    (listItems [itemLaptop, itemChair] none (some searchElectronics)
        none).pagination.totalItems
      = ([itemLaptop, itemChair].filter
          (fun it => specCIContains searchElectronics it.name
            || specCIContains searchElectronics it.category)).length :=
  (c8_search_filter [itemLaptop, itemChair] none none searchElectronics
    (by decide)).1

/-! ## Claim C9: `getItem` -/

/-- Strict decimal reading of an identifier, following the claim's words
"the identifier denotes exactly that record's id": the whole identifier is
an optionally signed run of decimal digits whose value is the id. -/
def strictDecimal? (s : List Char) : Option Int :=
  match s with
  | '-' :: rest =>
    if rest ≠ [] ∧ rest.all Char.isDigit then
      (digitsVal rest).map (fun n => -(n : Int))
    else none
  | _ =>
    if s ≠ [] ∧ s.all Char.isDigit then
      (digitsVal s).map (fun n => (n : Int))
    else none

/-- C9 counterexample: the identifier `"5.9"` denotes no integer at all —
in particular not the id `5` — yet `getItem` returns the record with id
`5`, because `parseInt` keeps the longest numeric head of the identifier.
So id comparison is not exact-value equality of what the identifier
denotes. -/
theorem c9_counterexample :
    getItem ['5', '.', '9'] [⟨5, ['a'], ['b'], 1⟩]
        = .ok ⟨5, ['a'], ['b'], 1⟩ ∧
      strictDecimal? ['5', '.', '9'] = none := by
  refine ⟨by decide, by decide⟩

/-- C9 (amended): `getItem` scans for the first record whose id equals
`parseInt` of the identifier (the longest numeric head after optional
whitespace and sign).  An identifier with no numeric head parses to `NaN`,
compares equal to nothing, and yields `NotFound` — not a format error; when
no record's id equals the parsed value the result is `NotFound`; a returned
record is a member with exactly the parsed id; and when some record
matches, one is returned. -/
theorem c9_amended_lookup :
    (∀ (ident : List Char) (data : List Item), parseIntJS ident = none →
      getItem ident data = .error .notFound) ∧
    (∀ (ident : List Char) (data : List Item) (r : Item),
      getItem ident data = .ok r →
      r ∈ data ∧ parseIntJS ident = some r.id) ∧
    (∀ (ident : List Char) (data : List Item),
      (∀ it ∈ data, parseIntJS ident ≠ some it.id) →
      getItem ident data = .error .notFound) ∧
    (∀ (ident : List Char) (data : List Item) (v : Int),
      parseIntJS ident = some v → (∃ it ∈ data, it.id = v) →
      ∃ r, getItem ident data = .ok r ∧ r.id = v) := by
  refine ⟨?_, ?_, ?_, ?_⟩
  · intro ident data hp
    simp [getItem, hp]
  · intro ident data r h
    cases hp : parseIntJS ident with
    | none => simp [getItem, hp] at h
    | some v =>
      cases hf : data.find? (fun it => it.id = v) with
      | none => simp [getItem, hp, hf] at h
      | some it =>
        simp only [getItem, hp, hf] at h
        cases h
        have hmem := List.mem_of_find?_eq_some hf
        have hid := List.find?_some hf
        simp only [decide_eq_true_eq] at hid
        exact ⟨hmem, by rw [hid]⟩
  · intro ident data hnone
    cases hp : parseIntJS ident with
    | none => simp [getItem, hp]
    | some v =>
      have hf : data.find? (fun it => it.id = v) = none := by
        rw [List.find?_eq_none]
        intro it hit
        simp only [decide_eq_true_eq]
        intro hid
        exact hnone it hit (by rw [hp, hid])
      simp [getItem, hp, hf]
  · intro ident data v hp hex
    have hsome : (data.find? (fun it => it.id = v)).isSome = true := by
      rw [List.find?_isSome]
      obtain ⟨it, hit, hid⟩ := hex
      exact ⟨it, hit, by simp [hid]⟩
    obtain ⟨r, hf⟩ := Option.isSome_iff_exists.mp hsome
    have hid := List.find?_some hf
    simp only [decide_eq_true_eq] at hid
    exact ⟨r, by simp [getItem, hp, hf], hid⟩

/-- Witness for the amended C9: a non-numeric identifier is `NotFound`. -/
theorem c9_witness :
    getItem ['x'] [⟨1, ['a'], ['b'], 1⟩] = .error .notFound :=
  c9_amended_lookup.1 ['x'] [⟨1, ['a'], ['b'], 1⟩] rfl

/-! ## Claim C10: the filter over ill-typed records -/

/-- The records on which the filter callback throws: a non-string name, or
a non-matching string name next to a non-string category (a matching name
short-circuits the `||` and never touches the category). -/
def dBad (searchTerm : List Char) (it : DItem) : Prop :=
  it.name = .nonstr ∨
  ∃ n, it.name = .str n ∧ containsSeq searchTerm (jsToLower n) = false ∧
    it.category = .nonstr

theorem dMatch_error_iff (t : List Char) (it : DItem) :
    dMatch t it = .error () ↔ dBad t it := by
  obtain ⟨nm, ct⟩ := it
  cases nm with
  | nonstr => simp [dMatch, dBad]
  | str n =>
    cases hc : containsSeq t (jsToLower n) with
    | true => cases ct <;> simp [dMatch, dBad, hc]
    | false => cases ct <;> simp [dMatch, dBad, hc]

theorem dFilter_error_iff (t : List Char) :
    ∀ l : List DItem, dFilter t l = .error () ↔ ∃ it ∈ l, dBad t it := by
  intro l
  induction l with
  | nil => simp [dFilter]
  | cons x xs ih =>
    cases hm : dMatch t x with
    | error e =>
      cases e
      simp only [dFilter, hm]
      simp [ih]
      exact Or.inl ((dMatch_error_iff t x).mp hm)
    | ok b =>
      have hxok : ¬dBad t x := fun hb =>
        by rw [← dMatch_error_iff t x] at hb; rw [hm] at hb; cases hb
      cases hr : dFilter t xs with
      | error e => cases e; simp [dFilter, hm, hr, ih.mp hr, hxok]
      | ok res =>
        simp only [dFilter, hm, hr]
        constructor
        · intro h; cases h
        · rintro ⟨it, hit, hbad⟩
          rcases List.mem_cons.mp hit with h | h
          · exact absurd (h ▸ hbad) hxok
          · exact absurd ((ih).mpr ⟨it, h, hbad⟩) (by rw [hr]; simp)

theorem dFilter_ok (t : List Char) :
    ∀ (l res : List DItem), dFilter t l = .ok res →
      res = l.filter (fun it => decide (dMatch t it = .ok true)) := by
  intro l
  induction l with
  | nil => intro res h; cases h; rfl
  | cons x xs ih =>
    intro res h
    cases hm : dMatch t x with
    | error e => rw [dFilter, hm] at h; cases h
    | ok b =>
      rw [dFilter, hm] at h
      cases hr : dFilter t xs with
      | error e => rw [hr] at h; cases h
      | ok tail =>
        rw [hr] at h
        cases h
        cases b with
        | true => simp [List.filter_cons, hm, ih tail hr]
        | false => simp [List.filter_cons, hm, ih tail hr]

/-- C10 counterexample: a collection containing a record whose category is
not a string on which the search filter nevertheless succeeds — the string
name contains the term, the `||` short-circuits, and the record is kept —
so a collection with an ill-typed field does not always make the filter
fail. -/
theorem c10_counterexample :
    (DItem.mk (.str ['e', 'l', 'e', 'c']) .nonstr).category = .nonstr ∧
      dSearch ['e', 'l', 'e', 'c']
          [⟨.str ['e', 'l', 'e', 'c'], .nonstr⟩]
        = .ok [⟨.str ['e', 'l', 'e', 'c'], .nonstr⟩] := by
  refine ⟨rfl, by decide⟩

/-- C10 (amended): with a non-empty search term, the filter fails — the
thrown `TypeError` surfacing as a server error — precisely when some
record's name is not a string, or some record's name is a string not
containing the term while its category is not a string; otherwise it
returns the records whose callback evaluated to true.  A record whose
string name matches the term is kept without its category ever being
inspected. -/
theorem c10_amended_filter_failure :
    ∀ (q : List Char) (data : List DItem), q ≠ [] →
      (dSearch q data = .error ()
        ↔ ∃ it ∈ data, dBad (jsToLower q) it) ∧
      (∀ res, dSearch q data = .ok res →
        res = data.filter
          (fun it => decide (dMatch (jsToLower q) it = .ok true))) := by
  intro q data hq
  have hne : q.isEmpty = false := by
    cases q with
    | nil => exact absurd rfl hq
    | cons _ _ => rfl
  constructor
  · rw [dSearch, hne]
    simp only [Bool.false_eq_true, if_false]
    exact dFilter_error_iff (jsToLower q) data
  · intro res h
    rw [dSearch, hne] at h
    simp only [Bool.false_eq_true, if_false] at h
    exact dFilter_ok (jsToLower q) data res h

/-- Witness for the amended C10: a well-typed one-record collection where
the filter succeeds and keeps the matching record. -/
theorem c10_witness :
    [DItem.mk (.str ['a']) (.str ['b'])]
      = [DItem.mk (.str ['a']) (.str ['b'])].filter
          (fun it => decide (dMatch (jsToLower ['a']) it = .ok true)) :=
  (c10_amended_filter_failure ['a'] [⟨.str ['a'], .str ['b']⟩]
    (by decide)).2 [⟨.str ['a'], .str ['b']⟩] (by decide)

end ItemStore
